import Mathlib

/-!
Verification of the `TripPointsList` component
(`src/ui/trip-points-list.js` of SmilingJey/637603-big-trip-8).

The component holds trip-point records fetched from a data source, filters
and sorts them, renders them grouped into day sections, and manages an
inline edit session.  Pure data is embedded directly; the DOM subtree owned
by the component is embedded as a list of child nodes (a status-message
paragraph or a day section holding item nodes); the thrown-exception
outcome of a render is embedded as `none`.
-/

namespace BigTrip

/-- A trip-point record as held by the data source: an identifier and a
date range (timestamps in milliseconds, as JavaScript `Date` values). -/
structure TripPointRecord where
  id : Nat
  dateFrom : Int
  dateTo : Int
  deriving DecidableEq

/-- Milliseconds per calendar day. -/
def msPerDay : Int := 86400000

/-- Calendar-day index of a timestamp (the day containing the Unix epoch
is day 0). -/
def dayIndex (t : Int) : Int := t.fdiv msPerDay

/-- Modelled from the spec: `calcDaysDiff` of `src/utils/date-utils.js` is
not under `src/`; the spec describes it as the calendar-day difference
between two dates, so it is the difference of the calendar-day indices. -/
def calcDaysDiff (date1 date2 : Int) : Int := dayIndex date2 - dayIndex date1

/-- Modelled from the spec: `compareDate` of `src/utils/date-utils.js` is
not under `src/`; the spec describes the default sort as a total order
comparator over records by `dateFrom`, so it is numeric date difference. -/
def compareDate (date1 date2 : Int) : Int := date1 - date2

/-- Modelled from the spec: `getTripStartDate` of `src/utils/trip-utils.js`
is not under `src/`; the spec describes it as the minimum `dateFrom` over
the given records. -/
def getTripStartDate (l : List TripPointRecord) : Int :=
  match l with
  | [] => 0
  | p :: rest => rest.foldl (fun m q => if q.dateFrom < m then q.dateFrom else m) p.dateFrom

/-- A JavaScript value assigned to `_sortFunction`: `null`, some other
non-function value, or a comparator function returning a number. -/
inductive SortValue where
  | jsNull
  | nonFunction
  | fn (cmp : TripPointRecord → TripPointRecord → Int)

/-- `typeof this._sortFunction === 'function'`. -/
def SortValue.isFunction : SortValue → Bool
  | .fn _ => true
  | _ => false

/-- A JavaScript value assigned to `_filterFunction`: `null`, some other
non-function value, or a predicate function. -/
inductive FilterValue where
  | jsNull
  | nonFunction
  | fn (pred : TripPointRecord → Bool)

/-- `typeof this._filterFunction === 'function'`. -/
def FilterValue.isFunction : FilterValue → Bool
  | .fn _ => true
  | _ => false

/-- The boolean "comes no later" relation induced by a JavaScript sort
comparator: `cmp a b <= 0` keeps `a` before `b`. -/
def jsSortLe (cmp : TripPointRecord → TripPointRecord → Int) (a b : TripPointRecord) : Bool :=
  decide (cmp a b ≤ 0)

/-- `_filterPoints`: applies the filter when the assigned value is a
function, otherwise returns the array unchanged. -/
def filterPoints (f : FilterValue) (l : List TripPointRecord) : List TripPointRecord :=
  match f with
  | .fn pred => l.filter pred
  | _ => l

/-- `_sortPoints`: sorts with the comparator when the assigned value is a
function (JavaScript `Array.prototype.sort` is stable, modelled by
`List.mergeSort`), otherwise returns the array unchanged. -/
def sortPoints (v : SortValue) (l : List TripPointRecord) : List TripPointRecord :=
  match v with
  | .fn cmp => l.mergeSort (jsSortLe cmp)
  | _ => l

/-- An item node inside a day section: a read-only trip-point view or an
edit form, both rendered from a record. -/
inductive ItemNode where
  | view (r : TripPointRecord)
  | edit (r : TripPointRecord)
  deriving DecidableEq

/-- Is this item an edit form? -/
def ItemNode.isEdit : ItemNode → Bool
  | .edit _ => true
  | _ => false

/-- A rendered day section: the displayed day number, the date shown in the
title, and the item nodes appended into its items container. -/
structure DaySection where
  number : Int
  date : Int
  items : List ItemNode
  deriving DecidableEq

/-- A direct child of the component's container element. -/
inductive ChildNode where
  | message (text : String)
  | day (d : DaySection)
  deriving DecidableEq

/-- Is this child a day section? -/
def ChildNode.isDay : ChildNode → Bool
  | .day _ => true
  | _ => false

/-- Item nodes contained in one child. -/
def childItems : ChildNode → List ItemNode
  | .message _ => []
  | .day d => d.items

/-- All item nodes of the rendered tree, in document order. -/
def allItems (cs : List ChildNode) : List ItemNode :=
  (cs.map childItems).flatten

/-- The edit forms present in the rendered tree, in document order. -/
def editItems (cs : List ChildNode) : List ItemNode :=
  (allItems cs).filter ItemNode.isEdit

/-- A tracked entry of `this._tripPoints`: the record a read-only view was
created from and whether the view is currently rendered (`unrender()`
detaches its element, after which DOM operations on it fault). -/
structure TrackedView where
  data : TripPointRecord
  rendered : Bool
  deriving DecidableEq

/-- The component state of `TripPointsList`: the pluggable sort and filter
values, the current edit session, the tracked read-only views, the status
message, the container's children, and the data source's current
`getTripPoints()` result (`none` embeds JavaScript `null`). -/
structure ListState where
  sortFunction : SortValue
  filterFunction : FilterValue
  tripPointEdit : Option TripPointRecord
  tripPoints : List TrackedView
  message : String
  children : List ChildNode
  dataSource : Option (List TripPointRecord)

/-- `_getData`: the data source's records, with `null` treated as empty. -/
def getData (s : ListState) : List TripPointRecord :=
  s.dataSource.getD []

/-- `getDisplayedPoints`: filter then sort the data-source records. -/
def getDisplayedPoints (s : ListState) : List TripPointRecord :=
  sortPoints s.sortFunction (filterPoints s.filterFunction (getData s))

/-- `_createTripDayElement`: a fresh day section for a record's date, its
number one more than the day difference from the trip start date. -/
def mkDaySection (tripStartDate date : Int) : DaySection :=
  { number := calcDaysDiff tripStartDate date + 1, date := date, items := [] }

/-- `_addTripPointElementToDayElement` on the current day section. -/
def appendItem (d : DaySection) (i : ItemNode) : DaySection :=
  { d with items := d.items ++ [i] }

/-- The render loop of `update()` after the first day section exists:
`cur` is the day section the next same-day views are appended into,
`prev` the previous record's `dateFrom`. -/
def groupRest (tripStartDate : Int) (cur : DaySection) (prev : Int) :
    List TripPointRecord → List DaySection
  | [] => [cur]
  | r :: rest =>
    if calcDaysDiff prev r.dateFrom ≠ 0 then
      cur :: groupRest tripStartDate
        (appendItem (mkDaySection tripStartDate r.dateFrom) (ItemNode.view r)) r.dateFrom rest
    else
      groupRest tripStartDate (appendItem cur (ItemNode.view r)) r.dateFrom rest

/-- The render loop of `update()` from its start: `prevTripPointDate` is
initialised to the number `0`, so the first record opens a day section
exactly when its calendar day differs from day 0 (the epoch day);
otherwise `dayElement` stays `null` and appending into it throws,
embedded as `none`. -/
def groupDays (tripStartDate : Int) : List TripPointRecord → Option (List DaySection)
  | [] => some []
  | r :: rest =>
    if calcDaysDiff 0 r.dateFrom ≠ 0 then
      some (groupRest tripStartDate
        (appendItem (mkDaySection tripStartDate r.dateFrom) (ItemNode.view r)) r.dateFrom rest)
    else
      none

/-- `_unrenderContent`: discard the edit session, unrender every tracked
read-only view (the entries stay in `this._tripPoints`, only their
elements are detached), and remove the container's children. -/
def unrenderContent (s : ListState) : ListState :=
  { s with
    tripPointEdit := none
    tripPoints := s.tripPoints.map (fun tv => { tv with rendered := false })
    children := [] }

/-- The children `update()` renders: the status message if set, then the
day sections; `none` embeds the exception thrown when the first displayed
record falls on the epoch calendar day. -/
def renderChildren (s : ListState) : Option (List ChildNode) :=
  let displayed := getDisplayedPoints s
  let msgs : List ChildNode := if s.message = "" then [] else [ChildNode.message s.message]
  if displayed.isEmpty then some msgs
  else (groupDays (getTripStartDate (getData s)) displayed).map
    (fun secs => msgs ++ secs.map ChildNode.day)

/-- `update()`: clear the previous content, then render the message and the
day-grouped displayed records, pushing a fresh rendered view for each
displayed record onto the (never emptied) tracked list. -/
def update (s : ListState) : Option ListState :=
  (renderChildren s).map fun cs =>
    { unrenderContent s with
      children := cs
      tripPoints :=
        (unrenderContent s).tripPoints ++
          if (getDisplayedPoints s).isEmpty then []
          else (getDisplayedPoints s).map (fun r => ⟨r, true⟩) }

/-- `showErrorMessage()`. -/
def showErrorMessage (s : ListState) : Option ListState :=
  update { s with message := "Something went wrong. Check your connection or try again later" }

/-- `showLoadingMessage()`. -/
def showLoadingMessage (s : ListState) : Option ListState :=
  update { s with message := "Loading route..." }

/-- `hideMessage()`. -/
def hideMessage (s : ListState) : Option ListState :=
  update { s with message := "" }

/-- Replace the first occurrence of `old` by `new` in a list of items,
reporting whether a replacement happened. -/
def replaceFirstItem (old new : ItemNode) : List ItemNode → List ItemNode × Bool
  | [] => ([], false)
  | i :: rest =>
    if i = old then (new :: rest, true)
    else
      let p := replaceFirstItem old new rest
      (i :: p.1, p.2)

/-- Replace the first occurrence of `old` by `new` across the rendered
tree (`Node.replaceChild` on the edited child's parent). -/
def replaceFirstChild (old new : ItemNode) : List ChildNode → List ChildNode × Bool
  | [] => ([], false)
  | ChildNode.message t :: rest =>
    let p := replaceFirstChild old new rest
    (ChildNode.message t :: p.1, p.2)
  | ChildNode.day d :: rest =>
    let q := replaceFirstItem old new d.items
    if q.2 then (ChildNode.day { d with items := q.1 } :: rest, true)
    else
      let p := replaceFirstChild old new rest
      (ChildNode.day d :: p.1, p.2)

/-- The tree after replacing the first occurrence of `old` by `new`. -/
def replaceNode (old new : ItemNode) (cs : List ChildNode) : List ChildNode :=
  (replaceFirstChild old new cs).1

/-- Modelled from the spec: `TripPointEdit.cancelEdit()` of
`src/ui/trip-point-edit.js` is not under `src/`; the spec states that
cancelling an edit session swaps a fresh read-only view for the edit form
and discards the session (the restored view is not added back to the
tracked list, matching the `onCancel` handler in the source). -/
def cancelEditSession (s : ListState) : ListState :=
  match s.tripPointEdit with
  | none => s
  | some r =>
    { s with
      tripPointEdit := none
      children := replaceNode (ItemNode.edit r) (ItemNode.view r) s.children }

/-- The state reached when an edit request on the tracked view `tv`
succeeds: any existing edit session is cancelled first, then the new edit
form replaces `tv`'s rendered view in the tree, `tv` is spliced out of
the tracked list, and the session handle points at `tv`'s record. -/
def openResult (s : ListState) (tv : TrackedView) : ListState :=
  let s1 := cancelEditSession s
  { s1 with
    tripPointEdit := some tv.data
    children := replaceNode (ItemNode.view tv.data) (ItemNode.edit tv.data) s1.children
    tripPoints := s1.tripPoints.erase tv }

/-- The shared body of a read-only view's `onEdit` handler and of
`openTripPointInEditMode` once the view is found: cancel any existing edit
session, create the edit form, replace the view's element by it, and
splice the view out of the tracked list.  A view that was unrendered has a
`null` element, so dereferencing it throws, embedded as `none`. -/
def handleEditRequest (s : ListState) (tv : TrackedView) : Option ListState :=
  if tv.rendered then some (openResult s tv) else none

/-- `openTripPointInEditMode({id})`: find the first tracked view whose
record has the given id; absent, do nothing. -/
def openTripPointInEditMode (s : ListState) (id : Nat) : Option ListState :=
  match s.tripPoints.find? (fun tv => tv.data.id == id) with
  | none => some s
  | some tv => handleEditRequest s tv

/-- The default sort set in the constructor: compare records by
`dateFrom` with `compareDate`. -/
def defaultSort : SortValue :=
  SortValue.fn (fun point1 point2 => compareDate point1.dateFrom point2.dateFrom)

/-- The observable state of a `TripPointEdit` view during a save or delete
attempt: the record being edited, whether the form is still in the
document, whether it is blocked, whether it has been shaken, and whether
it carries the unsaved-changes marker. -/
structure EditView where
  data : TripPointRecord
  stillOpen : Bool
  blocked : Bool
  shaken : Bool
  unsaved : Bool
  deriving DecidableEq

/-- Modelled from the spec: `TripPointEdit.savingBlock()` of
`src/ui/trip-point-edit.js` is not under `src/`; the spec says it blocks
(visually disables) the edit view. -/
def savingBlock (v : EditView) : EditView := { v with blocked := true }

/-- Modelled from the spec: `TripPointEdit.deletingBlock()` blocks the
edit view while a delete request is in flight. -/
def deletingBlock (v : EditView) : EditView := { v with blocked := true }

/-- Modelled from the spec: `TripPointEdit.unblock()` restores
interactivity. -/
def unblock (v : EditView) : EditView := { v with blocked := false }

/-- Modelled from the spec: `TripPointEdit.shake()` plays the error shake
animation on the edit view. -/
def shake (v : EditView) : EditView := { v with shaken := true }

/-- Modelled from the spec: `TripPointEdit.changesUnsaved()` marks the
edit view as having unsaved changes. -/
def changesUnsaved (v : EditView) : EditView := { v with unsaved := true }

/-- A request issued to the data source. -/
inductive DataCall where
  | updateCall (r : TripPointRecord)
  | deleteCall (r : TripPointRecord)
  deriving DecidableEq

/-- The `onSubmit` handler when `updateTripPoint` rejects: block for
saving, issue the update request, and in the `catch` shake, mark unsaved,
and unblock.  Returns the final view together with every data-source call
issued. -/
def onSubmitFailure (v : EditView) (newData : TripPointRecord) : EditView × List DataCall :=
  let v1 := savingBlock v
  (unblock (changesUnsaved (shake v1)), [DataCall.updateCall newData])

/-- The `onDelete` handler when `deleteTripPoint` rejects: block for
deleting, issue the delete request, and in the `catch` mark unsaved and
unblock (the source does not shake here).  Returns the final view together
with every data-source call issued. -/
def onDeleteFailure (v : EditView) : EditView × List DataCall :=
  let v1 := deletingBlock v
  (unblock (changesUnsaved v1), [DataCall.deleteCall v.data])

/-- A JavaScript array value: an object identity and its contents.  Used
to state in-place mutation: `Array.prototype.sort` returns the same array
object, `Array.prototype.filter` a fresh one. -/
structure JsArray where
  aid : Nat
  data : List TripPointRecord
  deriving DecidableEq

/-- `_filterPoints` at the array level: with a filter function the result
is a fresh array; otherwise the input array itself. -/
def filterPointsArr (f : FilterValue) (fresh : Nat) (a : JsArray) : JsArray :=
  match f with
  | .fn pred => { aid := fresh, data := a.data.filter pred }
  | _ => a

/-- `_sortPoints` at the array level: with a comparator the array is
sorted in place (same identity); otherwise it is returned unchanged. -/
def sortPointsArr (v : SortValue) (a : JsArray) : JsArray :=
  match v with
  | .fn cmp => { aid := a.aid, data := a.data.mergeSort (jsSortLe cmp) }
  | _ => a

/-- `getDisplayedPoints` at the array level: filter then sort the array
returned by the data source. -/
def getDisplayedPointsArr (sv : SortValue) (fv : FilterValue) (fresh : Nat)
    (src : JsArray) : JsArray :=
  sortPointsArr sv (filterPointsArr fv fresh src)

/-- Number of day-section runs read off a list of calendar-day indices,
starting from the previous day index `p`: a new run begins exactly when
the index changes. -/
def countRunsFrom (p : Int) : List Int → Nat
  | [] => 1
  | a :: l => (if a = p then 0 else 1) + countRunsFrom a l

/-- Well-formedness of a component state in normal operation: the edit
forms in the rendered tree are exactly the current edit session's, every
tracked rendered read-only view has its node in the tree, tracked ids are
distinct, and the session's record is not also tracked. -/
def Good (s : ListState) : Prop :=
  editItems s.children = (s.tripPointEdit.map ItemNode.edit).toList ∧
  (∀ tv ∈ s.tripPoints, tv.rendered = true → ItemNode.view tv.data ∈ allItems s.children) ∧
  (s.tripPoints.map fun tv => tv.data.id).Nodup ∧
  (∀ tv ∈ s.tripPoints, some tv.data.id ≠ s.tripPointEdit.map (fun r => r.id))

/-! ## Witness and counterexample fixtures -/

/-- Sample records used in witnesses (mid-November 2023, consecutive days). -/
def r1 : TripPointRecord := { id := 1, dateFrom := 1700000000000, dateTo := 1700003600000 }
/-- A record on the calendar day after `r1`. -/
def r2 : TripPointRecord := { id := 2, dateFrom := 1700086400000, dateTo := 1700090000000 }
/-- A record on the same calendar day as `r1`, slightly later. -/
def r3 : TripPointRecord := { id := 3, dateFrom := 1700000100000, dateTo := 1700003700000 }
/-- A state whose data source currently returns `null`. -/
def s8 : ListState :=
  { sortFunction := SortValue.jsNull
    filterFunction := FilterValue.jsNull
    tripPointEdit := none
    tripPoints := []
    message := "Loading route..."
    children := []
    dataSource := none }
/-- A state with one tracked rendered view for `r1`. -/
def s9 : ListState :=
  { sortFunction := SortValue.jsNull
    filterFunction := FilterValue.jsNull
    tripPointEdit := none
    tripPoints := [{ data := r1, rendered := true }]
    message := ""
    children := [ChildNode.day { number := 1, date := r1.dateFrom, items := [ItemNode.view r1] }]
    dataSource := some [r1] }
/-- A fresh open edit view for `r1`: unblocked, never shaken, no
unsaved-changes marker. -/
def v5 : EditView :=
  { data := r1, stillOpen := true, blocked := false, shaken := false, unsaved := false }
/-- The comparator installed by the constructor. -/
def defaultCmp (point1 point2 : TripPointRecord) : Int :=
  compareDate point1.dateFrom point2.dateFrom
/-- The data source's array in the C4 witness, out of date order. -/
def src4 : JsArray := { aid := 0, data := [r2, r1, r3] }

/-- A record whose `dateFrom` falls on the Unix-epoch calendar day. -/
def rEpoch : TripPointRecord := { id := 9, dateFrom := 1000, dateTo := 2000 }

/-- C1 counterexample state: no sort function (source order), records in
the order day 0, day 1, day 0 relative to the trip start. -/
def s1cex : ListState :=
  { sortFunction := SortValue.jsNull
    filterFunction := FilterValue.jsNull
    tripPointEdit := none
    tripPoints := []
    message := ""
    children := []
    dataSource := some [r1, r2, r3] }

/-- C1 counterexample state: the single record lies on the epoch day. -/
def s1epoch : ListState :=
  { sortFunction := SortValue.jsNull
    filterFunction := FilterValue.jsNull
    tripPointEdit := none
    tripPoints := []
    message := ""
    children := []
    dataSource := some [rEpoch] }

/-- C3 failing input: a fresh component over one record. -/
def s3 : ListState :=
  { sortFunction := SortValue.jsNull
    filterFunction := FilterValue.jsNull
    tripPointEdit := none
    tripPoints := []
    message := ""
    children := []
    dataSource := some [r1] }

/-- C6 witness state: a filter hides the earliest record `r1`, so only
`r2` is displayed while the trip start date still comes from `r1`. -/
def s6 : ListState :=
  { sortFunction := SortValue.jsNull
    filterFunction := FilterValue.fn (fun p => p.id == 2)
    tripPointEdit := none
    tripPoints := []
    message := ""
    children := []
    dataSource := some [r1, r2] }

/-- The state `update` produces from `s6`: one day section numbered 2. -/
def t6 : ListState :=
  { s6 with
    tripPoints := [{ data := r2, rendered := true }]
    children :=
      [ChildNode.day { number := 2, date := r2.dateFrom, items := [ItemNode.view r2] }] }

/-- C7 witness state: a fresh component over one record. -/
def s7 : ListState :=
  { sortFunction := SortValue.jsNull
    filterFunction := FilterValue.jsNull
    tripPointEdit := none
    tripPoints := []
    message := ""
    children := []
    dataSource := some [r1] }

/-- The state `showLoadingMessage` produces from `s7`: the message
paragraph followed by the single day section. -/
def s7mid : ListState :=
  { s7 with
    message := "Loading route..."
    tripPoints := [{ data := r1, rendered := true }]
    children :=
      [ChildNode.message "Loading route...",
       ChildNode.day { number := 1, date := r1.dateFrom, items := [ItemNode.view r1] }] }

/-- C2 witness state: `r1` is displayed read-only, `r2` is currently open
in an edit session. -/
def s2w : ListState :=
  { sortFunction := SortValue.jsNull
    filterFunction := FilterValue.jsNull
    tripPointEdit := some r2
    tripPoints := [{ data := r1, rendered := true }]
    message := ""
    children :=
      [ChildNode.day { number := 1, date := r1.dateFrom, items := [ItemNode.view r1] },
       ChildNode.day { number := 2, date := r2.dateFrom, items := [ItemNode.edit r2] }]
    dataSource := some [r1, r2] }

/-- The tracked view opened in the C2 witness. -/
def tv2w : TrackedView := { data := r1, rendered := true }

/-- C10 witness state: a non-function filter value assigned while the
default comparator function is still the sort value. -/
def s10a : ListState :=
  { sortFunction := SortValue.fn defaultCmp
    filterFunction := FilterValue.nonFunction
    tripPointEdit := none
    tripPoints := []
    message := ""
    children := []
    dataSource := some [r2, r1] }

/-- C10 witness state: a null sort value assigned while a filter function
is set. -/
def s10b : ListState :=
  { sortFunction := SortValue.jsNull
    filterFunction := FilterValue.fn (fun p => p.id == 1)
    tripPointEdit := none
    tripPoints := []
    message := ""
    children := []
    dataSource := some [r2, r1] }

/-! ## Supporting lemmas -/

theorem filterPoints_nil (f : FilterValue) : filterPoints f [] = [] := by
  cases f <;> simp [filterPoints]

theorem sortPoints_nil (v : SortValue) : sortPoints v [] = [] := by
  cases v <;> simp [sortPoints]

/-! ## Claim C10: non-function sort and filter values are treated as identity -/

/-- C10: each assigned non-function value is treated as identity on its
own, never invoked: a non-function filter value shows all records (only
the sort value still acts), a non-function sort value keeps the filtered
records in source order (only the filter value still acts), and with both
non-function the data-source records come back unchanged. -/
theorem c10_nonfunction_values_identity (s : ListState) :
    (s.filterFunction.isFunction = false →
      getDisplayedPoints s = sortPoints s.sortFunction (getData s)) ∧
    (s.sortFunction.isFunction = false →
      getDisplayedPoints s = filterPoints s.filterFunction (getData s)) ∧
    (s.filterFunction.isFunction = false → s.sortFunction.isFunction = false →
      getDisplayedPoints s = getData s) := by
  have hfil : s.filterFunction.isFunction = false →
      filterPoints s.filterFunction (getData s) = getData s := by
    intro h
    cases hf : s.filterFunction <;>
      simp_all [filterPoints, FilterValue.isFunction]
  have hsor : s.sortFunction.isFunction = false →
      ∀ l, sortPoints s.sortFunction l = l := by
    intro h l
    cases hv : s.sortFunction <;>
      simp_all [sortPoints, SortValue.isFunction]
  refine ⟨?_, ?_, ?_⟩
  · intro h
    rw [getDisplayedPoints, hfil h]
  · intro h
    rw [getDisplayedPoints, hsor h]
  · intro h1 h2
    rw [getDisplayedPoints, hfil h1, hsor h2]

theorem c10_witness :
    getDisplayedPoints s10a = sortPoints s10a.sortFunction (getData s10a) ∧
    getDisplayedPoints s10b = filterPoints s10b.filterFunction (getData s10b) :=
  ⟨(c10_nonfunction_values_identity s10a).1 rfl,
   (c10_nonfunction_values_identity s10b).2.1 rfl⟩

/-! ## Claim C8: a null `getTripPoints()` result is treated as empty -/

/-- C8: when the data source returns `null`, `getDisplayedPoints()` is the
empty list and `update()` succeeds, rendering no day sections. -/
theorem c8_null_data_treated_empty (s : ListState) (h : s.dataSource = none) :
    getDisplayedPoints s = [] ∧
    ∃ t, update s = some t ∧ ∀ c ∈ t.children, c.isDay = false := by
  have hd : getData s = [] := by simp [getData, h]
  have hdisp : getDisplayedPoints s = [] := by
    rw [getDisplayedPoints, hd, filterPoints_nil, sortPoints_nil]
  refine ⟨hdisp,
    ⟨{ unrenderContent s with
        children := if s.message = "" then [] else [ChildNode.message s.message] }, ?_, ?_⟩⟩
  · rw [update, renderChildren, hdisp]
    simp
  · intro c hc
    by_cases hm : s.message = ""
    · simp [hm] at hc
    · simp only [hm, if_false] at hc
      simp only [List.mem_singleton] at hc
      subst hc
      rfl


theorem c8_witness :
    getDisplayedPoints s8 = [] ∧
    ∃ t, update s8 = some t ∧ ∀ c ∈ t.children, c.isDay = false :=
  c8_null_data_treated_empty s8 rfl

/-! ## Claim C9: `openTripPointInEditMode` with an unknown id is a no-op -/

/-- C9: when no tracked read-only view has the requested id,
`openTripPointInEditMode` returns the state unchanged: no session is
created or cancelled, the tracked list and the tree are untouched. -/
theorem c9_unknown_id_noop (s : ListState) (id : Nat)
    (h : ∀ tv ∈ s.tripPoints, tv.data.id ≠ id) :
    openTripPointInEditMode s id = some s := by
  unfold openTripPointInEditMode
  have hfind : s.tripPoints.find? (fun tv => tv.data.id == id) = none := by
    rw [List.find?_eq_none]
    intro tv htv
    simp [h tv htv]
  rw [hfind]


theorem c9_witness : openTripPointInEditMode s9 99 = some s9 :=
  c9_unknown_id_noop s9 99 (by decide)

/-! ## Claim C5: failed save and delete requests -/

/-- C5 (amended): when `updateTripPoint` rejects, the edit view stays
open, is shaken, marked unsaved, and unblocked, and exactly the one
update request was issued; when `deleteTripPoint` rejects, the edit view
stays open, is marked unsaved and unblocked but is NOT shaken, and
exactly the one delete request was issued.  Nothing beyond the edit view
is touched and no retry happens. -/
theorem c5_failure_policy (v : EditView) (newData : TripPointRecord) :
    (onSubmitFailure v newData).1
        = { v with blocked := false, shaken := true, unsaved := true } ∧
    (onSubmitFailure v newData).2 = [DataCall.updateCall newData] ∧
    (onDeleteFailure v).1 = { v with blocked := false, unsaved := true } ∧
    (onDeleteFailure v).2 = [DataCall.deleteCall v.data] :=
  ⟨rfl, rfl, rfl, rfl⟩


/-- C5 counterexample: a failed `deleteTripPoint` call leaves the edit
view open, unblocked and marked unsaved — the claim's scenario — yet the
view is NOT shaken, contradicting the claim that every failed
`updateTripPoint` or `deleteTripPoint` call shakes the edit view. -/
theorem c5_counterexample :
    (onDeleteFailure v5).1.stillOpen = true ∧
    (onDeleteFailure v5).1.blocked = false ∧
    (onDeleteFailure v5).1.unsaved = true ∧
    (onDeleteFailure v5).1.shaken = false := by
  decide

/-! ## Claim C4: `getDisplayedPoints()` with a null filter -/

/-- C4: with a null filter, `getDisplayedPoints()` returns the very array
the data source returned (same object identity: the in-place sort mutates
it), its contents are a permutation of the full record set, they are
ordered by the sort comparator whenever one is set (for any comparator
inducing a transitive total keep-before relation), and they are in source
order when no comparator function is set. -/
theorem c4_null_filter_full_sorted (src : JsArray) (sv : SortValue) (fresh : Nat) :
    (getDisplayedPointsArr sv FilterValue.jsNull fresh src).aid = src.aid ∧
    (getDisplayedPointsArr sv FilterValue.jsNull fresh src).data.Perm src.data ∧
    (∀ cmp, sv = SortValue.fn cmp →
      (∀ a b c, jsSortLe cmp a b → jsSortLe cmp b c → jsSortLe cmp a c) →
      (∀ a b, jsSortLe cmp a b || jsSortLe cmp b a) →
      (getDisplayedPointsArr sv FilterValue.jsNull fresh src).data.Pairwise
        (fun a b => jsSortLe cmp a b)) ∧
    (sv.isFunction = false →
      (getDisplayedPointsArr sv FilterValue.jsNull fresh src).data = src.data) := by
  have hfilter : filterPointsArr FilterValue.jsNull fresh src = src := rfl
  cases sv with
  | jsNull =>
    refine ⟨rfl, List.Perm.refl _, ?_, fun _ => rfl⟩
    intro cmp h
    exact absurd h (by simp)
  | nonFunction =>
    refine ⟨rfl, List.Perm.refl _, ?_, fun _ => rfl⟩
    intro cmp h
    exact absurd h (by simp)
  | fn cmp =>
    refine ⟨rfl, ?_, ?_, ?_⟩
    · exact List.mergeSort_perm src.data (jsSortLe cmp)
    · intro cmp' hcmp htrans htotal
      cases hcmp
      exact List.sorted_mergeSort htrans htotal src.data
    · intro h
      exact absurd h (by simp [SortValue.isFunction])



theorem c4_witness :
    (getDisplayedPointsArr (SortValue.fn defaultCmp) FilterValue.jsNull 7 src4).aid = src4.aid ∧
    (getDisplayedPointsArr (SortValue.fn defaultCmp) FilterValue.jsNull 7 src4).data.Perm
      src4.data ∧
    (getDisplayedPointsArr (SortValue.fn defaultCmp) FilterValue.jsNull 7 src4).data.Pairwise
      (fun a b => jsSortLe defaultCmp a b) := by
  have h := c4_null_filter_full_sorted src4 (SortValue.fn defaultCmp) 7
  refine ⟨h.1, h.2.1, h.2.2.1 defaultCmp rfl ?_ ?_⟩
  · intro a b c hab hbc
    simp only [jsSortLe, defaultCmp, compareDate, decide_eq_true_eq] at *
    omega
  · intro a b
    simp only [jsSortLe, defaultCmp, compareDate, Bool.or_eq_true, decide_eq_true_eq]
    omega

/-! ## Claim C1: day-section boundaries -/

theorem dayIndex_zero : dayIndex 0 = 0 := rfl

theorem groupRest_length (tripStartDate : Int) (l : List TripPointRecord) :
    ∀ (cur : DaySection) (prev : Int),
      (groupRest tripStartDate cur prev l).length
        = countRunsFrom (dayIndex prev) (l.map fun p => dayIndex p.dateFrom) := by
  induction l with
  | nil =>
    intro cur prev
    rfl
  | cons r rest ih =>
    intro cur prev
    by_cases h : calcDaysDiff prev r.dateFrom = 0
    · have hd : dayIndex r.dateFrom = dayIndex prev := by
        simp only [calcDaysDiff] at h
        omega
      simp only [groupRest, h, ne_eq, not_true_eq_false, if_false, List.map_cons,
        countRunsFrom, hd, eq_self_iff_true, if_true, ih]
      omega
    · have hd : ¬dayIndex r.dateFrom = dayIndex prev := by
        simp only [calcDaysDiff] at h
        omega
      simp only [groupRest, h, ne_eq, not_false_eq_true, if_true, List.length_cons,
        List.map_cons, countRunsFrom, if_neg hd, ih]
      omega

theorem countRunsFrom_sorted_card (l : List Int) :
    ∀ a : Int, List.Sorted (· ≤ ·) (a :: l) →
      countRunsFrom a l = (a :: l).toFinset.card := by
  induction l with
  | nil =>
    intro a _
    simp [countRunsFrom]
  | cons b l ih =>
    intro a h
    obtain ⟨hab, h'⟩ := List.sorted_cons.mp h
    by_cases hba : b = a
    · subst hba
      rw [countRunsFrom, if_pos rfl, ih b h']
      simp [List.toFinset_cons]
    · have hb : a < b := lt_of_le_of_ne (hab b (List.mem_cons_self b l)) (fun e => hba e.symm)
      have hnot : a ∉ (b :: l).toFinset := by
        simp only [List.toFinset_cons, Finset.mem_insert, List.mem_toFinset]
        rintro (rfl | hmem)
        · exact lt_irrefl _ hb
        · have := (List.sorted_cons.mp h').1 a hmem
          omega
      rw [countRunsFrom, if_neg hba]
      conv_rhs => rw [List.toFinset_cons]
      rw [Finset.card_insert_of_not_mem hnot, ih b h']
      omega

theorem groupRest_flatten (tripStartDate : Int) (l : List TripPointRecord) :
    ∀ (cur : DaySection) (prev : Int),
      ((groupRest tripStartDate cur prev l).map DaySection.items).flatten
        = cur.items ++ l.map ItemNode.view := by
  induction l with
  | nil =>
    intro cur prev
    simp [groupRest]
  | cons r rest ih =>
    intro cur prev
    by_cases h : calcDaysDiff prev r.dateFrom = 0
    · simp only [groupRest, h, ne_eq, not_true_eq_false, if_false, ih, List.map_cons]
      simp [appendItem]
    · simp only [groupRest, h, ne_eq, not_false_eq_true, if_true, List.map_cons,
        List.flatten_cons, ih]
      simp [appendItem, mkDaySection]

theorem toFinset_card_map_sub (c : Int) (l : List Int) :
    (l.map fun x => x - c).toFinset.card = l.toFinset.card := by
  induction l with
  | nil => simp
  | cons a l ih =>
    simp only [List.map_cons, List.toFinset_cons]
    by_cases h : a ∈ l
    · have hm : a - c ∈ l.map fun x => x - c := List.mem_map_of_mem _ h
      rw [Finset.insert_eq_self.mpr (List.mem_toFinset.mpr hm),
        Finset.insert_eq_self.mpr (List.mem_toFinset.mpr h), ih]
    · have h1 : a ∉ l.toFinset := by simp [h]
      have h2 : a - c ∉ (l.map fun x => x - c).toFinset := by
        simp only [List.mem_toFinset, List.mem_map, not_exists, not_and]
        intro x hx he
        have hxa : x = a := by omega
        subst hxa
        exact h hx
      rw [Finset.card_insert_of_not_mem h1, Finset.card_insert_of_not_mem h2, ih]

theorem groupDays_eq (tripStartDate : Int) (r : TripPointRecord)
    (rest : List TripPointRecord) (h0 : dayIndex r.dateFrom ≠ 0) :
    groupDays tripStartDate (r :: rest)
      = some (groupRest tripStartDate
          (appendItem (mkDaySection tripStartDate r.dateFrom) (ItemNode.view r))
          r.dateFrom rest) := by
  rw [groupDays, if_pos]
  have hz : dayIndex 0 = 0 := rfl
  simp only [calcDaysDiff, hz]
  omega

/-- C1 (amended): provided the first displayed record's `dateFrom` does
not fall on the Unix-epoch calendar day (which the sentinel previous date
`0` would misread) and the displayed sequence is sorted by calendar day
(as the default date sort makes it), the render loop emits a new day
section exactly when a record's calendar day changes, so the number of
day sections equals the number of distinct day-difference values from the
trip start date, and the sections' items, concatenated in order, are
exactly one read-only view per displayed record. -/
theorem c1_day_sections (tripStartDate : Int) (points : List TripPointRecord)
    (h0 : ∀ r ∈ points.head?, dayIndex r.dateFrom ≠ 0)
    (hsorted : List.Sorted (· ≤ ·) (points.map fun p => dayIndex p.dateFrom)) :
    ∃ secs, groupDays tripStartDate points = some secs ∧
      secs.length
        = (points.map fun p => calcDaysDiff tripStartDate p.dateFrom).toFinset.card ∧
      (secs.map DaySection.items).flatten = points.map ItemNode.view := by
  cases points with
  | nil => exact ⟨[], rfl, by simp, by simp⟩
  | cons r rest =>
    have h0r : dayIndex r.dateFrom ≠ 0 := h0 r (by simp)
    refine ⟨_, groupDays_eq tripStartDate r rest h0r, ?_, ?_⟩
    · rw [groupRest_length]
      have hs' : List.Sorted (· ≤ ·)
          (dayIndex r.dateFrom :: rest.map fun p => dayIndex p.dateFrom) := by
        simpa using hsorted
      rw [countRunsFrom_sorted_card _ _ hs']
      have hmap : ((r :: rest).map fun p => calcDaysDiff tripStartDate p.dateFrom)
          = ((r :: rest).map fun p => dayIndex p.dateFrom).map
              fun x => x - dayIndex tripStartDate := by
        simp [calcDaysDiff]
      rw [hmap, toFinset_card_map_sub]
      simp
    · rw [groupRest_flatten]
      simp [appendItem, mkDaySection]

theorem c1_witness :
    groupDays r1.dateFrom [r1, r3, r2]
      = some [{ number := 1, date := r1.dateFrom, items := [ItemNode.view r1, ItemNode.view r3] },
              { number := 2, date := r2.dateFrom, items := [ItemNode.view r2] }] ∧
    ∃ secs, groupDays r1.dateFrom [r1, r3, r2] = some secs ∧
      secs.length
        = ([r1, r3, r2].map fun p => calcDaysDiff r1.dateFrom p.dateFrom).toFinset.card ∧
      (secs.map DaySection.items).flatten = [r1, r3, r2].map ItemNode.view := by
  refine ⟨by decide, c1_day_sections r1.dateFrom [r1, r3, r2] ?_ (by decide)⟩
  intro x hx
  simp only [List.head?_cons, Option.mem_def, Option.some.injEq] at hx
  subst hx
  decide

/-- C1 counterexample: with no sort comparator the displayed sequence is
in source order; for records on days 0, 1, 0 relative to the trip start,
`update()` renders 3 day sections while only 2 distinct day-difference
values occur, and a single record on the epoch calendar day makes
`update()` throw (no day section is ever created for it). -/
theorem c1_counterexample :
    ((update s1cex).map fun t => (t.children.filter ChildNode.isDay).length) = some 3 ∧
    ((getDisplayedPoints s1cex).map fun p =>
        calcDaysDiff (getTripStartDate (getData s1cex)) p.dateFrom).toFinset.card = 2 ∧
    (update s1epoch).isNone = true := by
  exact ⟨by decide, by decide, by decide⟩

/-! ## Claim C6: day numbering uses the trip start over all records -/

theorem foldlMin_le (l : List TripPointRecord) :
    ∀ init : Int,
      l.foldl (fun m q => if q.dateFrom < m then q.dateFrom else m) init ≤ init ∧
      ∀ r ∈ l, l.foldl (fun m q => if q.dateFrom < m then q.dateFrom else m) init ≤ r.dateFrom := by
  induction l with
  | nil =>
    intro init
    exact ⟨le_refl _, by simp⟩
  | cons q rest ih =>
    intro init
    simp only [List.foldl_cons]
    obtain ⟨ihA, ihB⟩ := ih (if q.dateFrom < init then q.dateFrom else init)
    refine ⟨le_trans ihA (by split <;> omega), ?_⟩
    intro r hr
    rcases List.mem_cons.mp hr with rfl | hr2
    · exact le_trans ihA (by split <;> omega)
    · exact ihB r hr2

theorem foldlMin_mem (l : List TripPointRecord) :
    ∀ init : Int,
      l.foldl (fun m q => if q.dateFrom < m then q.dateFrom else m) init = init ∨
      l.foldl (fun m q => if q.dateFrom < m then q.dateFrom else m) init
        ∈ l.map fun r => r.dateFrom := by
  induction l with
  | nil =>
    intro init
    exact Or.inl rfl
  | cons q rest ih =>
    intro init
    simp only [List.foldl_cons, List.map_cons]
    rcases ih (if q.dateFrom < init then q.dateFrom else init) with he | hm
    · rw [he]
      split
      · exact Or.inr (List.mem_cons_self _ _)
      · exact Or.inl rfl
    · exact Or.inr (List.mem_cons_of_mem _ hm)

theorem getTripStartDate_le (l : List TripPointRecord) :
    ∀ r ∈ l, getTripStartDate l ≤ r.dateFrom := by
  cases l with
  | nil => simp
  | cons p rest =>
    intro r hr
    rcases List.mem_cons.mp hr with rfl | hr2
    · exact (foldlMin_le rest r.dateFrom).1
    · exact (foldlMin_le rest p.dateFrom).2 r hr2

theorem getTripStartDate_mem (l : List TripPointRecord) (h : l ≠ []) :
    getTripStartDate l ∈ l.map fun r => r.dateFrom := by
  cases l with
  | nil => exact absurd rfl h
  | cons p rest =>
    have hdef : getTripStartDate (p :: rest)
        = rest.foldl (fun m q => if q.dateFrom < m then q.dateFrom else m) p.dateFrom := rfl
    rw [hdef, List.map_cons]
    rcases foldlMin_mem rest p.dateFrom with he | hm
    · rw [he]
      exact List.mem_cons_self _ _
    · exact List.mem_cons_of_mem _ hm

theorem groupRest_number (tripStartDate : Int) (l : List TripPointRecord) :
    ∀ (cur : DaySection) (prev : Int),
      cur.number = calcDaysDiff tripStartDate cur.date + 1 →
      ∀ d ∈ groupRest tripStartDate cur prev l,
        d.number = calcDaysDiff tripStartDate d.date + 1 := by
  induction l with
  | nil =>
    intro cur prev hcur d hd
    simp only [groupRest, List.mem_singleton] at hd
    subst hd
    exact hcur
  | cons r rest ih =>
    intro cur prev hcur d hd
    by_cases h : calcDaysDiff prev r.dateFrom = 0
    · simp only [groupRest, h, ne_eq, not_true_eq_false, if_false] at hd
      exact ih _ _ (by simpa [appendItem] using hcur) d hd
    · simp only [groupRest, h, ne_eq, not_false_eq_true, if_true, List.mem_cons] at hd
      rcases hd with rfl | hd2
      · exact hcur
      · exact ih _ _ (by simp [appendItem, mkDaySection]) d hd2

theorem groupDays_number (tripStartDate : Int) (l : List TripPointRecord)
    (secs : List DaySection) (h : groupDays tripStartDate l = some secs) :
    ∀ d ∈ secs, d.number = calcDaysDiff tripStartDate d.date + 1 := by
  cases l with
  | nil =>
    simp only [groupDays, Option.some.injEq] at h
    subst h
    simp
  | cons r rest =>
    simp only [groupDays] at h
    by_cases h0 : calcDaysDiff 0 r.dateFrom ≠ 0
    · rw [if_pos h0] at h
      injection h with h
      subst h
      exact groupRest_number tripStartDate rest _ r.dateFrom (by simp [appendItem, mkDaySection])
    · rw [if_neg h0] at h
      exact Option.noConfusion h

/-- C6: for any successful `update()`, the trip start date is the minimum
`dateFrom` over all data-source records (a lower bound attained on the
full record set, not just the displayed one), and every rendered day
section is numbered one more than its day difference from that date. -/
theorem c6_trip_start_over_all_records (s t : ListState) (h : update s = some t) :
    (∀ r ∈ getData s, getTripStartDate (getData s) ≤ r.dateFrom) ∧
    (getData s ≠ [] → getTripStartDate (getData s) ∈ (getData s).map fun r => r.dateFrom) ∧
    (∀ d, ChildNode.day d ∈ t.children →
      d.number = calcDaysDiff (getTripStartDate (getData s)) d.date + 1) := by
  refine ⟨getTripStartDate_le (getData s), getTripStartDate_mem (getData s), ?_⟩
  rcases Option.map_eq_some'.mp h with ⟨cs, hcs, hF⟩
  have hch : t.children = cs := by rw [← hF]
  intro d hd
  rw [hch] at hd
  simp only [renderChildren] at hcs
  by_cases hemp : (getDisplayedPoints s).isEmpty
  · rw [if_pos hemp] at hcs
    injection hcs with hcs
    subst hcs
    by_cases hm : s.message = ""
    · rw [if_pos hm] at hd
      exact absurd hd (List.not_mem_nil _)
    · rw [if_neg hm] at hd
      simp only [List.mem_singleton] at hd
      exact ChildNode.noConfusion hd
  · rw [if_neg hemp] at hcs
    rcases Option.map_eq_some'.mp hcs with ⟨secs, hsecs, hcs2⟩
    subst hcs2
    rcases List.mem_append.mp hd with hmsg | hday
    · by_cases hm : s.message = ""
      · rw [if_pos hm] at hmsg
        exact absurd hmsg (List.not_mem_nil _)
      · rw [if_neg hm] at hmsg
        simp only [List.mem_singleton] at hmsg
        exact ChildNode.noConfusion hmsg
    · rcases List.mem_map.mp hday with ⟨d2, hd2, he⟩
      injection he with he
      subst he
      exact groupDays_number _ _ _ hsecs d2 hd2

theorem c6_witness :
    (∀ r ∈ getData s6, getTripStartDate (getData s6) ≤ r.dateFrom) ∧
    (getData s6 ≠ [] → getTripStartDate (getData s6) ∈ (getData s6).map fun r => r.dateFrom) ∧
    (∀ d, ChildNode.day d ∈ t6.children →
      d.number = calcDaysDiff (getTripStartDate (getData s6)) d.date + 1) :=
  c6_trip_start_over_all_records s6 t6 (by rfl)

/-! ## Claim C7: show a loading message, then hide it -/

theorem update_map_children (s : ListState) :
    (update s).map ListState.children = renderChildren s := by
  rw [update]
  cases hr : renderChildren s with
  | none => rfl
  | some cs => rfl

theorem renderChildren_fields (s t : ListState) (h1 : s.sortFunction = t.sortFunction)
    (h2 : s.filterFunction = t.filterFunction) (h3 : s.message = t.message)
    (h4 : s.dataSource = t.dataSource) : renderChildren s = renderChildren t := by
  unfold renderChildren getDisplayedPoints getData
  rw [h1, h2, h3, h4]

theorem getDisplayedPoints_set_message (s : ListState) (m : String) :
    getDisplayedPoints { s with message := m } = getDisplayedPoints s := rfl

theorem getData_set_message (s : ListState) (m : String) :
    getData { s with message := m } = getData s := rfl

theorem renderChildren_isSome (s : ListState) (m1 m2 : String) (cs : List ChildNode)
    (h : renderChildren { s with message := m1 } = some cs) :
    ∃ cs2, renderChildren { s with message := m2 } = some cs2 := by
  simp only [renderChildren, getDisplayedPoints_set_message, getData_set_message] at h ⊢
  by_cases hemp : (getDisplayedPoints s).isEmpty
  · rw [if_pos hemp]
    exact ⟨_, rfl⟩
  · rw [if_neg hemp] at h ⊢
    rcases Option.map_eq_some'.mp h with ⟨secs, hsecs, _⟩
    rw [hsecs]
    exact ⟨_, rfl⟩

theorem renderChildren_no_message (s : ListState) (cs : List ChildNode)
    (hm : s.message = "") (h : renderChildren s = some cs) :
    ∀ txt, ChildNode.message txt ∉ cs := by
  intro txt hmem
  simp only [renderChildren, hm, eq_self_iff_true, if_true] at h
  by_cases hemp : (getDisplayedPoints s).isEmpty
  · rw [if_pos hemp] at h
    injection h with h
    subst h
    exact absurd hmem (List.not_mem_nil _)
  · rw [if_neg hemp] at h
    rcases Option.map_eq_some'.mp h with ⟨secs, _, hcs⟩
    subst hcs
    rw [List.nil_append] at hmem
    rcases List.mem_map.mp hmem with ⟨d, _, hd⟩
    exact ChildNode.noConfusion hd

/-- C7: after `showLoadingMessage()` immediately followed by
`hideMessage()`, the second call succeeds, the rendered tree is exactly
the tree `update()` produces with no message set, and it contains no
message node. -/
theorem c7_loading_then_hide (s s1 : ListState) (h : showLoadingMessage s = some s1) :
    ∃ s2, hideMessage s1 = some s2 ∧
      (update { s with message := "" }).map ListState.children = some s2.children ∧
      ∀ txt, ChildNode.message txt ∉ s2.children := by
  rcases Option.map_eq_some'.mp h with ⟨cs, hcs, hF⟩
  have hf1 : s1.sortFunction = s.sortFunction := by rw [← hF]; rfl
  have hf2 : s1.filterFunction = s.filterFunction := by rw [← hF]; rfl
  have hf4 : s1.dataSource = s.dataSource := by rw [← hF]; rfl
  have hrc : renderChildren { s1 with message := "" }
      = renderChildren { s with message := "" } :=
    renderChildren_fields _ _ hf1 hf2 rfl hf4
  obtain ⟨cs2, hcs2⟩ := renderChildren_isSome s "Loading route..." "" cs hcs
  have hs1some : ∃ s2, hideMessage s1 = some s2 ∧ s2.children = cs2 := by
    show ∃ s2, update { s1 with message := "" } = some s2 ∧ s2.children = cs2
    rw [update, hrc, hcs2]
    exact ⟨_, rfl, rfl⟩
  obtain ⟨s2, hs2, hs2c⟩ := hs1some
  refine ⟨s2, hs2, ?_, ?_⟩
  · rw [update_map_children, hcs2, hs2c]
  · rw [hs2c]
    exact renderChildren_no_message { s with message := "" } cs2 rfl hcs2

theorem c7_witness :
    ∃ s2, hideMessage s7mid = some s2 ∧
      (update { s7 with message := "" }).map ListState.children = some s2.children ∧
      ∀ txt, ChildNode.message txt ∉ s2.children :=
  c7_loading_then_hide s7 s7mid (by rfl)

/-! ## Claim C3: `update()` re-render and the tracked view list -/

/-- C3 evaluation at the failing input: after one `update()` the tracked
list holds one rendered view for the single record, but
`_unrenderContent` never empties `this._tripPoints`, so a second
`update()` leaves the stale unrendered entry in front of the fresh one;
the rendered tree and the cleared edit session do repeat exactly. -/
theorem c3_update_not_idempotent_eval :
    ((update s3).map fun t => t.tripPoints)
      = some [{ data := r1, rendered := true }] ∧
    (((update s3).bind update).map fun t => t.tripPoints)
      = some [{ data := r1, rendered := false }, { data := r1, rendered := true }] ∧
    (((update s3).bind update).map fun t => t.children)
      = ((update s3).map fun t => t.children) ∧
    (((update s3).bind update).map fun t => t.tripPointEdit) = some none := by
  exact ⟨by decide, by decide, by decide, by decide⟩

/-! ## Claim C2: at most one edit session -/

theorem allItems_cons (c : ChildNode) (cs : List ChildNode) :
    allItems (c :: cs) = childItems c ++ allItems cs := by
  simp [allItems]

theorem mem_replaceFirstItem (x old new : ItemNode) (l : List ItemNode)
    (hx : x ≠ old) (h : x ∈ l) : x ∈ (replaceFirstItem old new l).1 := by
  induction l with
  | nil => exact absurd h (List.not_mem_nil _)
  | cons i rest ih =>
    simp only [replaceFirstItem]
    by_cases hio : i = old
    · rw [if_pos hio]
      rcases List.mem_cons.mp h with rfl | h2
      · exact absurd hio hx
      · exact List.mem_cons_of_mem _ h2
    · rw [if_neg hio]
      rcases List.mem_cons.mp h with rfl | h2
      · exact List.mem_cons_self _ _
      · exact List.mem_cons_of_mem _ (ih h2)

theorem new_mem_replaceFirstItem (old new : ItemNode) (l : List ItemNode)
    (h : old ∈ l) : new ∈ (replaceFirstItem old new l).1 := by
  induction l with
  | nil => exact absurd h (List.not_mem_nil _)
  | cons i rest ih =>
    simp only [replaceFirstItem]
    by_cases hio : i = old
    · rw [if_pos hio]
      exact List.mem_cons_self _ _
    · rw [if_neg hio]
      have h2 : old ∈ rest := by
        rcases List.mem_cons.mp h with he | h2
        · exact absurd he.symm hio
        · exact h2
      exact List.mem_cons_of_mem _ (ih h2)

theorem replaceFirstItem_cons_self (old new : ItemNode) (rest : List ItemNode) :
    replaceFirstItem old new (old :: rest) = (new :: rest, true) := by
  simp [replaceFirstItem]

theorem replaceFirstItem_cons_ne (old new i : ItemNode) (rest : List ItemNode)
    (h : i ≠ old) :
    replaceFirstItem old new (i :: rest)
      = (i :: (replaceFirstItem old new rest).1, (replaceFirstItem old new rest).2) := by
  simp [replaceFirstItem, h]

theorem replaceFirstItem_append (old new : ItemNode) (l1 l2 : List ItemNode) :
    replaceFirstItem old new (l1 ++ l2)
      = if (replaceFirstItem old new l1).2
        then ((replaceFirstItem old new l1).1 ++ l2, true)
        else (l1 ++ (replaceFirstItem old new l2).1, (replaceFirstItem old new l2).2) := by
  induction l1 with
  | nil => simp [replaceFirstItem]
  | cons i rest ih =>
    by_cases hio : i = old
    · subst hio
      rw [List.cons_append, replaceFirstItem_cons_self, replaceFirstItem_cons_self]
      rfl
    · rw [List.cons_append, replaceFirstItem_cons_ne _ _ _ _ hio,
        replaceFirstItem_cons_ne _ _ _ _ hio, ih]
      by_cases h2 : (replaceFirstItem old new rest).2
      · rw [if_pos h2, if_pos h2]
        rfl
      · rw [if_neg h2, if_neg h2]
        rfl

theorem replaceFirstChild_spec (old new : ItemNode) (cs : List ChildNode) :
    allItems (replaceFirstChild old new cs).1
      = (replaceFirstItem old new (allItems cs)).1 ∧
    (replaceFirstChild old new cs).2 = (replaceFirstItem old new (allItems cs)).2 := by
  induction cs with
  | nil => exact ⟨rfl, rfl⟩
  | cons c rest ih =>
    cases c with
    | message t =>
      have hstep : replaceFirstChild old new (ChildNode.message t :: rest)
          = (ChildNode.message t :: (replaceFirstChild old new rest).1,
             (replaceFirstChild old new rest).2) := rfl
      constructor
      · rw [hstep]
        show [] ++ allItems (replaceFirstChild old new rest).1
            = (replaceFirstItem old new ([] ++ allItems rest)).1
        rw [List.nil_append, List.nil_append, ih.1]
      · rw [hstep]
        show (replaceFirstChild old new rest).2
            = (replaceFirstItem old new ([] ++ allItems rest)).2
        rw [List.nil_append, ih.2]
    | day d =>
      have hstep : replaceFirstChild old new (ChildNode.day d :: rest)
          = if (replaceFirstItem old new d.items).2
            then (ChildNode.day { d with items := (replaceFirstItem old new d.items).1 }
                    :: rest, true)
            else (ChildNode.day d :: (replaceFirstChild old new rest).1,
                  (replaceFirstChild old new rest).2) := rfl
      by_cases hq : (replaceFirstItem old new d.items).2
      · rw [hstep, if_pos hq]
        constructor
        · show (replaceFirstItem old new d.items).1 ++ allItems rest
              = (replaceFirstItem old new (d.items ++ allItems rest)).1
          rw [replaceFirstItem_append, if_pos hq]
        · show true = (replaceFirstItem old new (d.items ++ allItems rest)).2
          rw [replaceFirstItem_append, if_pos hq]
      · rw [hstep, if_neg hq]
        constructor
        · show d.items ++ allItems (replaceFirstChild old new rest).1
              = (replaceFirstItem old new (d.items ++ allItems rest)).1
          rw [replaceFirstItem_append, if_neg hq, ih.1]
        · show (replaceFirstChild old new rest).2
              = (replaceFirstItem old new (d.items ++ allItems rest)).2
          rw [replaceFirstItem_append, if_neg hq, ih.2]

theorem allItems_replaceNode (old new : ItemNode) (cs : List ChildNode) :
    allItems (replaceNode old new cs) = (replaceFirstItem old new (allItems cs)).1 :=
  (replaceFirstChild_spec old new cs).1

theorem filter_isEdit_replace_edit_view (r2 : TripPointRecord) (l : List ItemNode)
    (h : l.filter ItemNode.isEdit = [ItemNode.edit r2]) :
    (replaceFirstItem (ItemNode.edit r2) (ItemNode.view r2) l).1.filter ItemNode.isEdit
      = [] := by
  induction l with
  | nil => simp at h
  | cons i rest ih =>
    by_cases hi : ItemNode.isEdit i = true
    · have hfi : List.filter ItemNode.isEdit (i :: rest)
          = i :: List.filter ItemNode.isEdit rest := by
        simp [List.filter_cons, hi]
      rw [hfi] at h
      injection h with h1 h2
      subst h1
      rw [replaceFirstItem_cons_self]
      show List.filter ItemNode.isEdit (ItemNode.view r2 :: rest) = []
      have hfv : List.filter ItemNode.isEdit (ItemNode.view r2 :: rest)
          = List.filter ItemNode.isEdit rest := rfl
      rw [hfv]
      exact h2
    · have hfi : List.filter ItemNode.isEdit (i :: rest)
          = List.filter ItemNode.isEdit rest := by
        simp [List.filter_cons, hi]
      rw [hfi] at h
      have hio : i ≠ ItemNode.edit r2 := by
        intro e
        rw [e] at hi
        exact hi rfl
      rw [replaceFirstItem_cons_ne _ _ _ _ hio]
      show List.filter ItemNode.isEdit
          (i :: (replaceFirstItem (ItemNode.edit r2) (ItemNode.view r2) rest).1) = []
      have hfi2 : List.filter ItemNode.isEdit
          (i :: (replaceFirstItem (ItemNode.edit r2) (ItemNode.view r2) rest).1)
          = List.filter ItemNode.isEdit
              (replaceFirstItem (ItemNode.edit r2) (ItemNode.view r2) rest).1 := by
        simp [List.filter_cons, hi]
      rw [hfi2]
      exact ih h

theorem filter_isEdit_replace_view_edit (q : TripPointRecord) (l : List ItemNode)
    (h : l.filter ItemNode.isEdit = []) (hm : ItemNode.view q ∈ l) :
    (replaceFirstItem (ItemNode.view q) (ItemNode.edit q) l).1.filter ItemNode.isEdit
      = [ItemNode.edit q] := by
  induction l with
  | nil => exact absurd hm (List.not_mem_nil _)
  | cons i rest ih =>
    by_cases hio : i = ItemNode.view q
    · subst hio
      rw [replaceFirstItem_cons_self]
      show List.filter ItemNode.isEdit (ItemNode.edit q :: rest) = [ItemNode.edit q]
      have hfe : List.filter ItemNode.isEdit (ItemNode.edit q :: rest)
          = ItemNode.edit q :: List.filter ItemNode.isEdit rest := rfl
      have hfv : List.filter ItemNode.isEdit (ItemNode.view q :: rest)
          = List.filter ItemNode.isEdit rest := rfl
      rw [hfv] at h
      rw [hfe, h]
    · rw [replaceFirstItem_cons_ne _ _ _ _ hio]
      have hm2 : ItemNode.view q ∈ rest := by
        rcases List.mem_cons.mp hm with he | h2
        · exact absurd he.symm hio
        · exact h2
      by_cases hi : ItemNode.isEdit i = true
      · have hfi : List.filter ItemNode.isEdit (i :: rest)
            = i :: List.filter ItemNode.isEdit rest := by
          simp [List.filter_cons, hi]
        rw [hfi] at h
        exact List.noConfusion h
      · have hfi : List.filter ItemNode.isEdit (i :: rest)
            = List.filter ItemNode.isEdit rest := by
          simp [List.filter_cons, hi]
        rw [hfi] at h
        show List.filter ItemNode.isEdit
            (i :: (replaceFirstItem (ItemNode.view q) (ItemNode.edit q) rest).1)
            = [ItemNode.edit q]
        have hfi2 : List.filter ItemNode.isEdit
            (i :: (replaceFirstItem (ItemNode.view q) (ItemNode.edit q) rest).1)
            = List.filter ItemNode.isEdit
                (replaceFirstItem (ItemNode.view q) (ItemNode.edit q) rest).1 := by
          simp [List.filter_cons, hi]
        rw [hfi2]
        exact ih h hm2

theorem cancelEditSession_tripPoints (s : ListState) :
    (cancelEditSession s).tripPoints = s.tripPoints := by
  rw [cancelEditSession]
  cases s.tripPointEdit <;> rfl

theorem cancelEditSession_children_none (s : ListState) (h : s.tripPointEdit = none) :
    (cancelEditSession s).children = s.children := by
  rw [cancelEditSession, h]

theorem cancelEditSession_children_some (s : ListState) (r2 : TripPointRecord)
    (h : s.tripPointEdit = some r2) :
    (cancelEditSession s).children
      = replaceNode (ItemNode.edit r2) (ItemNode.view r2) s.children := by
  rw [cancelEditSession, h]

/-- C2: on a well-formed state, an edit request on a tracked rendered
view — the shared body of a read-only view's edit callback and of
`openTripPointInEditMode` — first cancels any existing edit session and
only then installs the new one: afterwards the session handle and the
tree's single edit form belong to the requested record, the previously
edited record is back to a read-only view, and the state is well formed
again, so at most one edit session ever exists. -/
theorem c2_open_cancels_previous (s : ListState) (tv : TrackedView)
    (hG : Good s) (htv : tv ∈ s.tripPoints) (hr : tv.rendered = true) :
    handleEditRequest s tv = some (openResult s tv) ∧
    (openResult s tv).tripPointEdit = some tv.data ∧
    editItems (openResult s tv).children = [ItemNode.edit tv.data] ∧
    (∀ r2, s.tripPointEdit = some r2 →
      ItemNode.edit r2 ∉ allItems (openResult s tv).children ∧
      ItemNode.view r2 ∈ allItems (openResult s tv).children) ∧
    Good (openResult s tv) ∧
    (∀ id, s.tripPoints.find? (fun u => u.data.id == id) = some tv →
      openTripPointInEditMode s id = handleEditRequest s tv) := by
  obtain ⟨hEdits, hViews, hNodup, hFresh⟩ := hG
  have hNodupL : s.tripPoints.Nodup := hNodup.of_map
  have hA1 : editItems (cancelEditSession s).children = [] := by
    cases hE : s.tripPointEdit with
    | none =>
      rw [cancelEditSession_children_none s hE]
      rw [hE] at hEdits
      exact hEdits
    | some r2 =>
      rw [cancelEditSession_children_some s r2 hE]
      show (allItems (replaceNode (ItemNode.edit r2) (ItemNode.view r2) s.children)).filter
          ItemNode.isEdit = []
      rw [allItems_replaceNode]
      apply filter_isEdit_replace_edit_view
      rw [hE] at hEdits
      exact hEdits
  have hA2 : ∀ u ∈ s.tripPoints, u.rendered = true →
      ItemNode.view u.data ∈ allItems (cancelEditSession s).children := by
    intro u hu hur
    cases hE : s.tripPointEdit with
    | none =>
      rw [cancelEditSession_children_none s hE]
      exact hViews u hu hur
    | some r2 =>
      rw [cancelEditSession_children_some s r2 hE, allItems_replaceNode]
      exact mem_replaceFirstItem _ _ _ _ (by simp) (hViews u hu hur)
  have hA4 : ∀ r2, s.tripPointEdit = some r2 →
      ItemNode.view r2 ∈ allItems (cancelEditSession s).children := by
    intro r2 hE
    rw [cancelEditSession_children_some s r2 hE, allItems_replaceNode]
    apply new_mem_replaceFirstItem
    have hmem : ItemNode.edit r2 ∈ editItems s.children := by
      rw [hEdits, hE]
      simp
    exact List.mem_of_mem_filter hmem
  have hA3 : ItemNode.view tv.data ∈ allItems (cancelEditSession s).children :=
    hA2 tv htv hr
  have hB1 : editItems (openResult s tv).children = [ItemNode.edit tv.data] := by
    show (allItems (replaceNode (ItemNode.view tv.data) (ItemNode.edit tv.data)
        (cancelEditSession s).children)).filter ItemNode.isEdit = _
    rw [allItems_replaceNode]
    exact filter_isEdit_replace_view_edit tv.data _ hA1 hA3
  have htp : (openResult s tv).tripPoints = s.tripPoints.erase tv := by
    show (cancelEditSession s).tripPoints.erase tv = s.tripPoints.erase tv
    rw [cancelEditSession_tripPoints]
  have hmem_erase : ∀ u ∈ s.tripPoints.erase tv, u ∈ s.tripPoints ∧ u ≠ tv := by
    intro u hu
    have h2 := (List.Nodup.mem_erase_iff hNodupL).mp hu
    exact ⟨h2.2, h2.1⟩
  have hid_ne : ∀ u ∈ s.tripPoints, u ≠ tv → u.data.id ≠ tv.data.id := by
    intro u hu hne he
    exact hne (List.inj_on_of_nodup_map hNodup hu htv he)
  have hdata_ne : ∀ u ∈ s.tripPoints, u ≠ tv → u.data ≠ tv.data := by
    intro u hu hne he
    exact hid_ne u hu hne (by rw [he])
  refine ⟨?_, rfl, hB1, ?_, ?_, ?_⟩
  · rw [handleEditRequest, hr]
    rfl
  · intro r2 hE
    have hne : r2 ≠ tv.data := by
      have hf := hFresh tv htv
      rw [hE] at hf
      intro he
      subst he
      exact hf rfl
    constructor
    · intro hmem
      have hmem2 : ItemNode.edit r2 ∈ editItems (openResult s tv).children :=
        List.mem_filter.mpr ⟨hmem, rfl⟩
      rw [hB1] at hmem2
      simp only [List.mem_singleton] at hmem2
      injection hmem2 with hmem2
      exact hne hmem2
    · have hpres := hA4 r2 hE
      show ItemNode.view r2 ∈ allItems (replaceNode (ItemNode.view tv.data)
          (ItemNode.edit tv.data) (cancelEditSession s).children)
      rw [allItems_replaceNode]
      exact mem_replaceFirstItem _ _ _ _ (by simp [hne]) hpres
  · refine ⟨?_, ?_, ?_, ?_⟩
    · show editItems (openResult s tv).children
        = ((openResult s tv).tripPointEdit.map ItemNode.edit).toList
      rw [hB1]
      rfl
    · intro u hu hur
      rw [htp] at hu
      obtain ⟨hu1, hu2⟩ := hmem_erase u hu
      show ItemNode.view u.data ∈ allItems (replaceNode (ItemNode.view tv.data)
          (ItemNode.edit tv.data) (cancelEditSession s).children)
      rw [allItems_replaceNode]
      exact mem_replaceFirstItem _ _ _ _
        (by simp [hdata_ne u hu1 hu2]) (hA2 u hu1 hur)
    · have hsub : ((openResult s tv).tripPoints.map fun u => u.data.id).Sublist
          (s.tripPoints.map fun u => u.data.id) := by
        rw [htp]
        exact List.Sublist.map _ (List.erase_sublist _ _)
      exact List.Nodup.sublist hsub hNodup
    · intro u hu
      rw [htp] at hu
      obtain ⟨hu1, hu2⟩ := hmem_erase u hu
      show some u.data.id ≠ ((some tv.data).map fun r => r.id)
      simp only [Option.map_some', ne_eq, Option.some.injEq]
      exact hid_ne u hu1 hu2
  · intro id hfind
    rw [openTripPointInEditMode, hfind]

theorem c2_witness :
    handleEditRequest s2w tv2w = some (openResult s2w tv2w) ∧
    (openResult s2w tv2w).tripPointEdit = some tv2w.data ∧
    editItems (openResult s2w tv2w).children = [ItemNode.edit tv2w.data] ∧
    (∀ r2, s2w.tripPointEdit = some r2 →
      ItemNode.edit r2 ∉ allItems (openResult s2w tv2w).children ∧
      ItemNode.view r2 ∈ allItems (openResult s2w tv2w).children) ∧
    Good (openResult s2w tv2w) ∧
    (∀ id, s2w.tripPoints.find? (fun u => u.data.id == id) = some tv2w →
      openTripPointInEditMode s2w id = handleEditRequest s2w tv2w) :=
  c2_open_cancels_previous s2w tv2w
    ⟨by decide, by decide, by decide, by decide⟩ (by decide) rfl
